import Mathlib

/-!
Verification development for the transcript-control browser extension.

The definitions below are a shallow embedding of the transcript extraction
pipeline (src/transcript.js) and of the cross-context request/response
bridge (src/content.js).  Strings are modelled at the character-list level;
JavaScript regular-expression scans are embedded as explicit left-to-right
scanners with a fuel argument equal to the input length, so that every
definition is kernel-computable.
-/

/-! ## Character-list utilities -/

/-- Consume the literal pattern from the head of the input, returning the
remainder on success.  Mirrors matching a fixed literal portion of a
JavaScript regular expression at the current position. -/
def dropLit : List Char → List Char → Option (List Char)
  | [], cs => some cs
  | _ :: _, [] => none
  | p :: ps, c :: cs => if c = p then dropLit ps cs else none

theorem dropLit_self_append (p xs : List Char) : dropLit p (p ++ xs) = some xs := by
  induction p with
  | nil => rfl
  | cons c cs ih => simp [dropLit, ih]

theorem dropLit_length {p cs r : List Char} (h : dropLit p cs = some r) :
    r.length + p.length = cs.length := by
  induction p generalizing cs with
  | nil => simp [dropLit] at h; simp [h]
  | cons x xs ih =>
    cases cs with
    | nil => simp [dropLit] at h
    | cons c cs =>
      simp only [dropLit] at h
      split at h
      · have := ih h
        simp [List.length_cons]
        omega
      · exact absurd h (by simp)

theorem dropLit_head {x : Char} {xs cs r : List Char} {c : Char}
    (h : dropLit (x :: xs) (c :: cs) = some r) : c = x := by
  simp only [dropLit] at h
  split at h
  · assumption
  · exact absurd h (by simp)

theorem takeWhile_append_stop {p : Char → Bool} {l : List Char} {y : Char}
    (r : List Char) (hl : ∀ c ∈ l, p c = true) (hy : p y = false) :
    (l ++ y :: r).takeWhile p = l := by
  induction l with
  | nil => simp [List.takeWhile, hy]
  | cons a as ih =>
    have ha : p a = true := hl a (by simp)
    simp only [List.cons_append, List.takeWhile_cons, ha, if_true]
    rw [ih (fun c hc => hl c (by simp [hc]))]

theorem dropWhile_append_stop {p : Char → Bool} {l : List Char} {y : Char}
    (r : List Char) (hl : ∀ c ∈ l, p c = true) (hy : p y = false) :
    (l ++ y :: r).dropWhile p = y :: r := by
  induction l with
  | nil => simp [List.dropWhile, hy]
  | cons a as ih =>
    have ha : p a = true := hl a (by simp)
    simp only [List.cons_append, List.dropWhile_cons, ha, if_true]
    exact ih (fun c hc => hl c (by simp [hc]))

theorem length_dropWhile_le (p : Char → Bool) (l : List Char) :
    (l.dropWhile p).length ≤ l.length := by
  induction l with
  | nil => simp [List.dropWhile]
  | cons a as ih =>
    simp only [List.dropWhile_cons]
    split
    · exact Nat.le_succ_of_le ih
    · simp

/-! ## Decimal rendering of numbers

JavaScript renders non-negative integers in template strings (and in
Number.prototype.toString with the default radix) as plain decimal digit
sequences without leading zeros.  The fuel argument makes the definition
structural; fuel n + 1 always suffices. -/

def natToDecimalGo : Nat → Nat → List Char
  | 0, _ => []
  | fuel + 1, n =>
    if n < 10 then [Nat.digitChar n]
    else natToDecimalGo fuel (n / 10) ++ [Nat.digitChar (n % 10)]

/-- Decimal digit rendering of a natural number, as JavaScript string
interpolation produces for a non-negative integer. -/
def natToDecimal (n : Nat) : List Char := natToDecimalGo (n + 1) n

theorem natToDecimalGo_congr :
    ∀ f g n, n < f → n < g → natToDecimalGo f n = natToDecimalGo g n := by
  intro f
  induction f with
  | zero => intro g n h; omega
  | succ f ih =>
    intro g n hf hg
    cases g with
    | zero => omega
    | succ g =>
      simp only [natToDecimalGo]
      split
      · rfl
      · have hn : 10 ≤ n := by omega
        have hdiv : n / 10 < n := Nat.div_lt_self (by omega) (by omega)
        rw [ih g (n / 10) (by omega) (by omega)]

theorem natToDecimal_lt (n : Nat) (h : n < 10) : natToDecimal n = [Nat.digitChar n] := by
  simp [natToDecimal, natToDecimalGo, h]

theorem natToDecimal_ge (n : Nat) (h : 10 ≤ n) :
    natToDecimal n = natToDecimal (n / 10) ++ [Nat.digitChar (n % 10)] := by
  have hdiv : n / 10 < n := Nat.div_lt_self (by omega) (by omega)
  have hstep : natToDecimalGo (n + 1) n
      = natToDecimalGo n (n / 10) ++ [Nat.digitChar (n % 10)] := by
    simp only [natToDecimalGo]
    rw [if_neg (by omega)]
  rw [natToDecimal, hstep,
    natToDecimalGo_congr n (n / 10 + 1) (n / 10) (by omega) (by omega)]
  rfl

theorem natToDecimal_ne_nil (n : Nat) : natToDecimal n ≠ [] := by
  by_cases h : n < 10
  · rw [natToDecimal_lt n h]; simp
  · rw [natToDecimal_ge n (by omega)]; simp

theorem digitChar_inj_lt :
    ∀ a < 10, ∀ b < 10, Nat.digitChar a = Nat.digitChar b → a = b := by decide

theorem natToDecimal_inj : ∀ a b : Nat, natToDecimal a = natToDecimal b → a = b := by
  intro a
  induction a using Nat.strong_induction_on with
  | _ a ih =>
    intro b h
    by_cases ha : a < 10 <;> by_cases hb : b < 10
    · rw [natToDecimal_lt a ha, natToDecimal_lt b hb] at h
      exact digitChar_inj_lt a ha b hb (List.cons.inj h).1
    · rw [natToDecimal_lt a ha, natToDecimal_ge b (by omega)] at h
      have := congrArg List.length h
      simp at this
      exact absurd this (natToDecimal_ne_nil (b / 10))
    · rw [natToDecimal_ge a (by omega), natToDecimal_lt b hb] at h
      have := congrArg List.length h
      simp at this
      exact absurd this (natToDecimal_ne_nil (a / 10))
    · rw [natToDecimal_ge a (by omega), natToDecimal_ge b (by omega)] at h
      have hrev := congrArg List.reverse h
      simp only [List.reverse_append, List.reverse_cons, List.reverse_nil,
        List.nil_append, List.cons_append] at hrev
      have hlast : Nat.digitChar (a % 10) = Nat.digitChar (b % 10) :=
        (List.cons.inj hrev).1
      have htail : (natToDecimal (a / 10)).reverse = (natToDecimal (b / 10)).reverse :=
        (List.cons.inj hrev).2
      have hmod : a % 10 = b % 10 :=
        digitChar_inj_lt (a % 10) (Nat.mod_lt a (by omega)) (b % 10)
          (Nat.mod_lt b (by omega)) hlast
      have hdiveq : a / 10 = b / 10 := by
        have hda : a / 10 < a := Nat.div_lt_self (by omega) (by omega)
        exact ih (a / 10) hda (b / 10) (List.reverse_injective htail)
      omega

/-! ## Timestamp formatting (formatTimestamp, src/transcript.js lines 327-339) -/

/-- Left zero-padding to two characters, mirroring
n.toString().padStart(2, the zero digit). -/
def padTwo (n : Nat) : String :=
  let s := natToDecimal n
  String.mk (List.replicate (2 - s.length) '0' ++ s)

/-- Embedding of formatTimestamp: milliseconds to mm:ss, or h:mm:ss when the
hour count is positive (hours themselves unpadded). -/
def formatTimestamp (ms : Nat) : String :=
  let totalSeconds := ms / 1000
  let hours := totalSeconds / 3600
  let minutes := (totalSeconds % 3600) / 60
  let seconds := totalSeconds % 60
  if hours > 0 then
    String.mk (natToDecimal hours) ++ ":" ++ padTwo minutes ++ ":" ++ padTwo seconds
  else
    padTwo minutes ++ ":" ++ padTwo seconds

/-! ## HTML entity decoding (decodeHtmlEntities, src/transcript.js lines 266-290) -/

/-- Numeric value of a decimal digit sequence, as parseInt with radix 10
computes on an all-digit string. -/
def digitsToNat (ds : List Char) : Nat :=
  ds.foldl (fun n c => 10 * n + (c.toNat - 48)) 0

/-- Numeric value of a hexadecimal digit sequence, as parseInt with radix 16
computes on an all-hex-digit string. -/
def hexDigitsToNat (ds : List Char) : Nat :=
  ds.foldl (fun n c =>
    16 * n +
      (if c.isDigit then c.toNat - 48
       else if 97 ≤ c.toNat then c.toNat - 87
       else c.toNat - 55)) 0

/-- Embedding of String.fromCharCode: the argument is reduced modulo 2 ^ 16
(ECMAScript ToUint16) and used as a UTF-16 code unit.  Code-unit values that
are not scalar values are mapped to the null character by Char.ofNat; no
claim in this development exercises that corner. -/
def fromCharCode (n : Nat) : Char := Char.ofNat (n % 65536)

/-- Generic left-to-right single-pass rewriter over a character list: at each
position, if the matcher fires, its output is emitted and the scan resumes
after the consumed portion; otherwise one character is copied.  This is the
shared shape of String.prototype.split followed by Array.prototype.join with
a literal separator, and of String.prototype.replace with a global regular
expression. -/
def rewriteGo (f : List Char → Option (List Char × List Char)) :
    Nat → List Char → List Char
  | 0, cs => cs
  | _ + 1, [] => []
  | fuel + 1, c :: cs =>
    match f (c :: cs) with
    | some (out, rest) => out ++ rewriteGo f fuel rest
    | none => c :: rewriteGo f fuel cs

/-- Matcher for a fixed literal pattern, replaced by a fixed output. -/
def litMatcher (pat rep : List Char) (cs : List Char) : Option (List Char × List Char) :=
  match dropLit pat cs with
  | some rest => some (rep, rest)
  | none => none

/-- Replace every non-overlapping occurrence of the pattern, scanning left to
right: the semantics of text.split(pattern).join(replacement). -/
def replaceAll (pat rep : List Char) (cs : List Char) : List Char :=
  if pat.isEmpty then cs else rewriteGo (litMatcher pat rep) cs.length cs

/-- Entity table of decodeHtmlEntities, in the object-literal insertion order
the source iterates over. -/
def entityTable : List (String × String) :=
  [("&amp;", "&"), ("&lt;", "<"), ("&gt;", ">"), ("&quot;", "\""),
   ("&#39;", "\x27"), ("&apos;", "\x27"), ("&#x27;", "\x27"),
   ("&#x2F;", "/"), ("&#47;", "/"), ("&nbsp;", " ")]

def applyEntityTable (cs : List Char) : List Char :=
  entityTable.foldl (fun acc p => replaceAll p.1.toList p.2.toList acc) cs

/-- Matcher for one decimal numeric character reference at the head of the
input, mirroring the global regular expression for ampersand, hash, one or
more decimal digits, semicolon. -/
def decEntAt (cs : List Char) : Option (List Char × List Char) :=
  match dropLit "&#".toList cs with
  | none => none
  | some rest =>
    let ds := rest.takeWhile Char.isDigit
    if ds.isEmpty then none
    else
      match dropLit [';'] (rest.dropWhile Char.isDigit) with
      | none => none
      | some rest2 => some ([fromCharCode (digitsToNat ds)], rest2)

def isHexDigit (c : Char) : Bool :=
  c.isDigit || ('a' ≤ c && c ≤ 'f') || ('A' ≤ c && c ≤ 'F')

/-- Matcher for one hexadecimal numeric character reference at the head of
the input: ampersand, hash, lowercase x, one or more hex digits, semicolon. -/
def hexEntAt (cs : List Char) : Option (List Char × List Char) :=
  match dropLit "&#x".toList cs with
  | none => none
  | some rest =>
    let ds := rest.takeWhile isHexDigit
    if ds.isEmpty then none
    else
      match dropLit [';'] (rest.dropWhile isHexDigit) with
      | none => none
      | some rest2 => some ([fromCharCode (hexDigitsToNat ds)], rest2)

def decodeDecEntities (cs : List Char) : List Char := rewriteGo decEntAt cs.length cs

def decodeHexEntities (cs : List Char) : List Char := rewriteGo hexEntAt cs.length cs

/-- Embedding of decodeHtmlEntities: the fixed entity table is applied first,
pair by pair in insertion order, then decimal numeric references, then
hexadecimal numeric references. -/
def decodeHtmlEntities (s : String) : String :=
  String.mk (decodeHexEntities (decodeDecEntities (applyEntityTable s.toList)))

/-! ## Text cleanup used by the tag-delimited parser -/

/-- ECMAScript whitespace set used by String.prototype.trim (WhiteSpace and
LineTerminator code points). -/
def isJsWhitespace (c : Char) : Bool :=
  c == '\t' || c == '\n' || c == '\x0b' || c == '\x0c' || c == '\r' || c == ' ' ||
  c == '\u00A0' || c == '\u1680' || ('\u2000' ≤ c && c ≤ '\u200A') ||
  c == '\u2028' || c == '\u2029' || c == '\u202F' || c == '\u205F' ||
  c == '\u3000' || c == '\uFEFF'

/-- Trim of leading and trailing whitespace, as String.prototype.trim. -/
def trimChars (cs : List Char) : List Char :=
  ((cs.dropWhile isJsWhitespace).reverse.dropWhile isJsWhitespace).reverse

/-- Cleanup applied to the raw text of each matched element: entity decoding,
replacement of every newline by a space, then trim
(src/transcript.js lines 309-311). -/
def cleanText (raw : List Char) : List Char :=
  trimChars ((decodeHexEntities (decodeDecEntities (applyEntityTable raw))).map
    (fun c => if c = '\n' then ' ' else c))

/-! ## Tag-delimited payload parser (parseTranscriptXml, src/transcript.js lines 298-320)

The source scans the payload with one global regular expression: the literal
open tag with a t attribute holding one or more decimal digits, any run of
characters other than the closing angle bracket, the closing angle bracket,
a text run of characters other than an opening angle bracket, then the
literal closing tag.  The scan below matches at each position and advances
one character on failure, exactly as a global exec loop does. -/

/-- Attempt to match one element of the tag-delimited format at the head of
the input; on success return the start attribute value, the raw text run and
the remaining input. -/
def matchPTag (cs : List Char) : Option (Nat × List Char × List Char) :=
  match dropLit "<p t=\"".toList cs with
  | none => none
  | some r1 =>
    let ds := r1.takeWhile Char.isDigit
    if ds.isEmpty then none
    else
      match dropLit ['"'] (r1.dropWhile Char.isDigit) with
      | none => none
      | some r2 =>
        match dropLit ['>'] (r2.dropWhile (fun c => c != '>')) with
        | none => none
        | some r3 =>
          match dropLit "</p>".toList (r3.dropWhile (fun c => c != '<')) with
          | none => none
          | some r4 => some (digitsToNat ds, r3.takeWhile (fun c => c != '<'), r4)

theorem matchPTag_rest_lt {cs : List Char} {t : Nat} {txt rest : List Char}
    (h : matchPTag cs = some (t, txt, rest)) : rest.length < cs.length := by
  unfold matchPTag at h
  cases h1 : dropLit "<p t=\"".toList cs with
  | none => rw [h1] at h; simp at h
  | some r1 =>
    rw [h1] at h
    simp only at h
    have hr1 : r1.length + 6 = cs.length := dropLit_length h1
    split at h
    · simp at h
    · cases h2 : dropLit ['"'] (r1.dropWhile Char.isDigit) with
      | none => rw [h2] at h; simp at h
      | some r2 =>
        rw [h2] at h
        simp only at h
        have hr2 : r2.length + 1 = (r1.dropWhile Char.isDigit).length :=
          dropLit_length h2
        have hr2b : (r1.dropWhile Char.isDigit).length ≤ r1.length :=
          length_dropWhile_le _ r1
        cases h3 : dropLit ['>'] (r2.dropWhile (fun c => c != '>')) with
        | none => rw [h3] at h; simp at h
        | some r3 =>
          rw [h3] at h
          simp only at h
          have hr3 : r3.length + 1 = (r2.dropWhile (fun c => c != '>')).length :=
            dropLit_length h3
          have hr3b : (r2.dropWhile (fun c => c != '>')).length ≤ r2.length :=
            length_dropWhile_le _ r2
          cases h4 : dropLit "</p>".toList (r3.dropWhile (fun c => c != '<')) with
          | none => rw [h4] at h; simp at h
          | some r4 =>
            rw [h4] at h
            simp only at h
            have hr4 : r4.length + 4 = (r3.dropWhile (fun c => c != '<')).length :=
              dropLit_length h4
            have hr4b : (r3.dropWhile (fun c => c != '<')).length ≤ r3.length :=
              length_dropWhile_le _ r3
            simp only [Option.some.injEq, Prod.mk.injEq] at h
            obtain ⟨-, -, hrest⟩ := h
            subst hrest
            omega

/-- One step of the global scan loop: match here, or advance one
character. -/
def scanGo : Nat → List Char → List (Nat × List Char)
  | 0, _ => []
  | _ + 1, [] => []
  | fuel + 1, c :: cs =>
    match matchPTag (c :: cs) with
    | some (t, txt, rest) => (t, txt) :: scanGo fuel rest
    | none => scanGo fuel cs

/-- All matches of the element pattern over the payload, in scan order. -/
def pMatches (cs : List Char) : List (Nat × List Char) := scanGo cs.length cs

theorem scanGo_congr :
    ∀ f g cs, cs.length ≤ f → cs.length ≤ g → scanGo f cs = scanGo g cs := by
  intro f
  induction f with
  | zero =>
    intro g cs hf _
    have : cs = [] := by
      cases cs with
      | nil => rfl
      | cons a as => simp at hf
    subst this
    cases g <;> rfl
  | succ f ih =>
    intro g cs hf hg
    cases cs with
    | nil => cases g <;> rfl
    | cons c cs =>
      cases g with
      | zero => simp at hg
      | succ g =>
        cases hm : matchPTag (c :: cs) with
        | some v =>
          obtain ⟨t, txt, rest⟩ := v
          have hlt := matchPTag_rest_lt hm
          simp only [List.length_cons] at hf hg hlt
          simp only [scanGo, hm]
          rw [ih g rest (by omega) (by omega)]
        | none =>
          simp only [List.length_cons] at hf hg
          simp only [scanGo, hm]
          exact ih g cs (by omega) (by omega)

theorem pMatches_nil : pMatches [] = [] := rfl

theorem pMatches_step {cs : List Char} {t : Nat} {txt rest : List Char}
    (h : matchPTag cs = some (t, txt, rest)) :
    pMatches cs = (t, txt) :: pMatches rest := by
  cases cs with
  | nil =>
    simp [matchPTag, dropLit] at h
  | cons c cs =>
    have hlt := matchPTag_rest_lt h
    simp only [pMatches, List.length_cons, scanGo, h]
    simp only [List.length_cons] at hlt
    rw [scanGo_congr cs.length rest.length rest (by omega) (by omega)]

/-- Rendered line for one match, as pushed by the source loop
(src/transcript.js lines 313-316). -/
def lineOfMatch (m : Nat × List Char) : Option String :=
  let text := cleanText m.2
  if text.isEmpty then none
  else some ("[" ++ formatTimestamp m.1 ++ "] " ++ String.mk text)

/-- Lines array built by parseTranscriptXml before the final join. -/
def transcriptLines (xml : String) : List String :=
  (pMatches xml.toList).filterMap lineOfMatch

/-- Embedding of parseTranscriptXml: all lines joined by single newlines
(with no trailing newline). -/
def parseTranscriptXml (xml : String) : String :=
  String.intercalate "\n" (transcriptLines xml)

/-! ## Well-formed tag-delimited entries and their rendering -/

/-- One well-formable element of the tag-delimited format: the decimal text
of the t attribute, the remaining attribute characters before the closing
angle bracket, and the element text. -/
structure PEntry where
  tAttr : List Char
  attrs : List Char
  text : List Char

/-- Well-formedness of an entry: a non-empty all-digit t attribute, no
closing angle bracket among the remaining attribute characters, and no
opening angle bracket inside the text. -/
def wellFormed (e : PEntry) : Prop :=
  e.tAttr ≠ [] ∧ (∀ c ∈ e.tAttr, c.isDigit = true) ∧
  (∀ c ∈ e.attrs, c ≠ '>') ∧ (∀ c ∈ e.text, c ≠ '<')

instance (e : PEntry) : Decidable (wellFormed e) := by
  unfold wellFormed
  infer_instance

/-- Concrete character sequence of one rendered element. -/
def renderEntry (e : PEntry) : List Char :=
  "<p t=\"".toList ++
    (e.tAttr ++ ('"' :: (e.attrs ++ ('>' :: (e.text ++ "</p>".toList)))))

/-- Concatenation of the rendered elements: a payload consisting of exactly
these entries. -/
def renderPayload (es : List PEntry) : List Char :=
  es.foldr (fun e acc => renderEntry e ++ acc) []

theorem matchPTag_renderEntry (e : PEntry) (rest : List Char) (hw : wellFormed e) :
    matchPTag (renderEntry e ++ rest) = some (digitsToNat e.tAttr, e.text, rest) := by
  obtain ⟨hne, hdig, hattrs, htext⟩ := hw
  have hshape : renderEntry e ++ rest =
      "<p t=\"".toList ++
        (e.tAttr ++ ('"' :: (e.attrs ++ ('>' :: (e.text ++ ("</p>".toList ++ rest)))))) := by
    simp [renderEntry]
  rw [hshape]
  unfold matchPTag
  rw [dropLit_self_append]
  have htake1 : (e.tAttr ++ ('"' :: (e.attrs ++ ('>' :: (e.text ++ ("</p>".toList ++ rest)))))).takeWhile Char.isDigit = e.tAttr :=
    takeWhile_append_stop _ hdig (by decide)
  have hdrop1 : (e.tAttr ++ ('"' :: (e.attrs ++ ('>' :: (e.text ++ ("</p>".toList ++ rest)))))).dropWhile Char.isDigit
      = '"' :: (e.attrs ++ ('>' :: (e.text ++ ("</p>".toList ++ rest)))) :=
    dropWhile_append_stop _ hdig (by decide)
  simp only [htake1, hdrop1]
  have hempty : e.tAttr.isEmpty = false := by
    cases h' : e.tAttr with
    | nil => exact absurd h' hne
    | cons a as => rfl
  rw [if_neg (by simp [hempty])]
  have hquote : dropLit ['"']
      ('"' :: (e.attrs ++ ('>' :: (e.text ++ ("</p>".toList ++ rest)))))
      = some (e.attrs ++ ('>' :: (e.text ++ ("</p>".toList ++ rest)))) := by
    simp [dropLit]
  rw [hquote]
  have hattrs2 : ∀ c ∈ e.attrs, (c != '>') = true := by
    intro c hc
    simp [bne]
    exact hattrs c hc
  have hdrop2 : (e.attrs ++ ('>' :: (e.text ++ ("</p>".toList ++ rest)))).dropWhile (fun c => c != '>')
      = '>' :: (e.text ++ ("</p>".toList ++ rest)) :=
    dropWhile_append_stop _ hattrs2 (by decide)
  simp only [hdrop2]
  have hgt : dropLit ['>'] ('>' :: (e.text ++ ("</p>".toList ++ rest)))
      = some (e.text ++ ("</p>".toList ++ rest)) := by
    simp [dropLit]
  rw [hgt]
  have htext2 : ∀ c ∈ e.text, (c != '<') = true := by
    intro c hc
    simp [bne]
    exact htext c hc
  have hshape2 : e.text ++ ("</p>".toList ++ rest)
      = e.text ++ ('<' :: ("/p>".toList ++ rest)) := by
    simp
  have htake3 : (e.text ++ ("</p>".toList ++ rest)).takeWhile (fun c => c != '<') = e.text := by
    rw [hshape2]
    exact takeWhile_append_stop _ htext2 (by decide)
  have hdrop3 : (e.text ++ ("</p>".toList ++ rest)).dropWhile (fun c => c != '<')
      = "</p>".toList ++ rest := by
    rw [hshape2]
    rw [dropWhile_append_stop _ htext2 (by decide)]
    simp
  simp only [hdrop3, htake3]
  rw [dropLit_self_append]

theorem pMatches_render (es : List PEntry) (h : ∀ e ∈ es, wellFormed e) :
    pMatches (renderPayload es) = es.map (fun e => (digitsToNat e.tAttr, e.text)) := by
  induction es with
  | nil => rfl
  | cons e es ih =>
    have hw := h e (by simp)
    have hrest : renderPayload (e :: es) = renderEntry e ++ renderPayload es := rfl
    rw [hrest, pMatches_step (matchPTag_renderEntry e (renderPayload es) hw),
      ih (fun x hx => h x (by simp [hx]))]
    rfl

/-! ## Caption track selection (getTranscript, src/transcript.js lines 357-364) -/

/-- One caption track entry of the catalog returned by the player endpoint.
The kind field is absent for human-authored tracks; the sentinel value for
auto-generated tracks is the string asr. -/
structure CaptionTrack where
  baseUrl : String
  languageCode : String
  kind : Option String
deriving DecidableEq

/-- Predicate of the find call in the source: the kind field is falsy
(absent or the empty string) or differs from the sentinel. -/
def preferredTrack (t : CaptionTrack) : Bool :=
  match t.kind with
  | none => true
  | some k => k.isEmpty || k != "asr"

/-- Embedding of the selection step: the first track satisfying the source
predicate, else the first track of the list; none only on the empty list. -/
def selectTrack (tracks : List CaptionTrack) : Option CaptionTrack :=
  match tracks.find? preferredTrack with
  | some t => some t
  | none => tracks.head?

/-- Selection as the specification words it: the first track whose kind is
not the auto-generated sentinel, else the first track of the list. -/
def specSelectTrack (tracks : List CaptionTrack) : Option CaptionTrack :=
  match tracks.find? (fun t => t.kind != some "asr") with
  | some t => some t
  | none => tracks.head?

theorem preferredTrack_eq (t : CaptionTrack) :
    preferredTrack t = (t.kind != some "asr") := by
  unfold preferredTrack
  cases t.kind with
  | none => rfl
  | some k =>
    by_cases hk : k = "asr"
    · subst hk; rfl
    · have h1 : (k != "asr") = true := by simp [bne, hk]
      have h2 : (some k != some "asr") = true := by simp [bne, hk]
      simp [h1, h2]

/-! ## Error taxonomy and the extraction pipeline (src/transcript.js lines 347-381)

Each constructor corresponds to one throw site of the source; the string
messages thrown there are recorded by errMessage below. -/

inductive TError where
  | noVideoId
  | noApiKey
  | playerApiFailed (status : Nat)
  | noTranscriptAvailable
  | fetchFailed (status : Nat)
  | fetchTimeout
  | emptyTranscriptResponse
  | parseFailure
deriving DecidableEq

/-- Messages of the corresponding throw sites in the source. -/
def errMessage : TError → String
  | .noVideoId => "No video ID found"
  | .noApiKey => "Could not find API key"
  | .playerApiFailed s => "Player API failed: " ++ String.mk (natToDecimal s)
  | .noTranscriptAvailable => "No transcript available"
  | .fetchFailed s => "Failed to fetch transcript: " ++ String.mk (natToDecimal s)
  | .fetchTimeout => "TimeoutError"
  | .emptyTranscriptResponse => "Empty transcript response"
  | .parseFailure => "Failed to parse transcript"

/-- Classification of the specification: UpstreamUnavailable covers a
non-success HTTP status or an empty body from either network call. -/
def isUpstreamUnavailable : TError → Bool
  | .playerApiFailed _ => true
  | .fetchFailed _ => true
  | .emptyTranscriptResponse => true
  | _ => false

/-- Outcome of a text fetch: a settled HTTP response, or expiry of the
15-second abort bound attached to the request. -/
structure HttpText where
  ok : Bool
  status : Nat
  body : String
deriving DecidableEq

inductive FetchResult where
  | response (r : HttpText)
  | timedOut
deriving DecidableEq

/-- Bound in milliseconds passed to the abort signal of the raw caption
fetch (src/transcript.js line 248). -/
def rawFetchTimeoutMs : Nat := 15000

/-- Embedding of fetchTranscriptXml: reject on timeout, throw on non-success
status, otherwise yield the body text. -/
def fetchTranscriptXml (f : FetchResult) : Except TError String :=
  match f with
  | .timedOut => .error .fetchTimeout
  | .response r =>
    if r.ok then .ok r.body else .error (.fetchFailed r.status)

/-- Raw payload acquisition as the specification operation fetchRawPayload:
fetchTranscriptXml followed by the explicit zero-length body check performed
by getTranscript (src/transcript.js lines 367-371). -/
def fetchRawPayload (f : FetchResult) : Except TError String :=
  match fetchTranscriptXml f with
  | .error e => .error e
  | .ok xml => if xml.length = 0 then .error .emptyTranscriptResponse else .ok xml

/-- Player endpoint response: HTTP success flag and status, plus the caption
track catalog found at the fixed nested path of the response JSON (none when
the path is absent). -/
structure PlayerResp where
  ok : Bool
  status : Nat
  captions : Option (List CaptionTrack)
deriving DecidableEq

/-- Embedding of getCaptionTracks: the catalog at the fixed path, or the
empty list. -/
def getCaptionTracks (captions : Option (List CaptionTrack)) : List CaptionTrack :=
  captions.getD []

/-- Embedding of fetchPlayerData: requires the page-scoped API key, then
throws on non-success status, else yields the response data. -/
def fetchPlayerData (apiKey : Option String) (resp : PlayerResp) :
    Except TError (Option (List CaptionTrack)) :=
  match apiKey with
  | none => .error .noApiKey
  | some _ =>
    if resp.ok then .ok resp.captions else .error (.playerApiFailed resp.status)

/-- External world of one getTranscript invocation: the video id parsed from
the location, the page config API key, the player endpoint response, and the
outcome of the raw caption fetch. -/
structure Env where
  videoId : Option String
  apiKey : Option String
  playerResp : PlayerResp
  xmlFetch : FetchResult
deriving DecidableEq

/-- Embedding of getTranscript (src/transcript.js lines 347-381): the
sequential pipeline with every failure propagated unchanged. -/
def getTranscript (env : Env) : Except TError String :=
  match env.videoId with
  | none => .error .noVideoId
  | some _ =>
    match fetchPlayerData env.apiKey env.playerResp with
    | .error e => .error e
    | .ok captions =>
      let tracks := getCaptionTracks captions
      if tracks.isEmpty then .error .noTranscriptAvailable
      else
        match selectTrack tracks with
        | none => .error .noTranscriptAvailable
        | some _track =>
          match fetchRawPayload env.xmlFetch with
          | .error e => .error e
          | .ok xml =>
            let transcript := parseTranscriptXml xml
            if transcript.isEmpty then .error .parseFailure
            else .ok transcript

/-- Response message shape posted on the shared window channel. -/
structure ResultMsg where
  type : String
  messageId : String
  transcript : Option String
  error : Option String
deriving DecidableEq

/-- Embedding of the page-context message listener reply
(src/transcript.js lines 397-408): a success posts the transcript, a failure
posts the error message, always under the same correlation identifier. -/
def listenerResponse (messageId : String) (res : Except TError String) : ResultMsg :=
  match res with
  | .ok t => ⟨"TRANSCRIPT_RESULT", messageId, some t, none⟩
  | .error e => ⟨"TRANSCRIPT_RESULT", messageId, none, some (errMessage e)⟩

/-! ## Bridge request state machine (requestTranscript, src/content.js lines 91-122)

One requestTranscript call registers a message listener keyed by its freshly
minted correlation identifier, posts the request, and arms a 15-second
timeout that is never cancelled.  The events a request can observe are
incoming window messages and the firing of its own timeout.  The promise
resolver is idempotent (ECMAScript promise semantics): only the first
resolution is retained. -/

inductive BridgeEvent where
  | msg (m : ResultMsg)
  | timeout
deriving DecidableEq

/-- State of one pending request: whether its listener is still registered,
and the retained resolution, if any.  The resolution payload is the message
transcript field, or none for the null resolution of the error and timeout
paths. -/
structure ReqState where
  listenerOn : Bool
  result : Option (Option String)
deriving DecidableEq

def initState : ReqState := ⟨true, none⟩

/-- First-resolution-wins update of the promise. -/
def resolveWith (s : ReqState) (v : Option String) : ReqState :=
  match s.result with
  | some _ => s
  | none => ⟨s.listenerOn, some v⟩

/-- Truthiness of the error field as the listener tests it: present and not
the empty string. -/
def errTruthy (m : ResultMsg) : Bool :=
  match m.error with
  | some e => !e.isEmpty
  | none => false

/-- Correlation test of the handler: result type tag and matching message
identifier. -/
def matchesId (myId : String) (m : ResultMsg) : Bool :=
  m.type == "TRANSCRIPT_RESULT" && m.messageId == myId

/-- One event step of the request: a correlated message received while the
listener is registered deregisters it and resolves (null on a truthy error
field, the transcript field otherwise); any other message is ignored; the
timeout deregisters the listener and resolves null. -/
def step (myId : String) (s : ReqState) (e : BridgeEvent) : ReqState :=
  match e with
  | .msg m =>
    if s.listenerOn && matchesId myId m then
      if errTruthy m then resolveWith ⟨false, s.result⟩ none
      else resolveWith ⟨false, s.result⟩ m.transcript
    else s
  | .timeout => resolveWith ⟨false, s.result⟩ none

/-- Run of one request over its observed event sequence. -/
def runReq (myId : String) (events : List BridgeEvent) : ReqState :=
  events.foldl (step myId) initState

/-- Events that can settle the request: a correlated message or the
timeout. -/
def isSettling (myId : String) : BridgeEvent → Bool
  | .msg m => matchesId myId m
  | .timeout => true

/-- Bound in milliseconds of the bridge response timeout
(src/content.js line 120). -/
def bridgeTimeoutMs : Nat := 15000

/-- Correlation identifier minting (src/content.js line 93): the fixed text
followed by the decimal clock reading of Date.now at issue time. -/
def mintId (now : Nat) : String :=
  "transcript-" ++ String.mk (natToDecimal now)

/-- Two requests minted at the given clock readings (first at most second)
overlap as pending requests when the second is minted before the first has
been settled by its timeout and no response settled it earlier.  The
earlier request is still pending at the later mint exactly when the later
reading lies short of the timeout bound. -/
def concurrentlyPending (t1 t2 : Nat) : Prop :=
  t1 ≤ t2 ∧ t2 < t1 + bridgeTimeoutMs

instance (t1 t2 : Nat) : Decidable (concurrentlyPending t1 t2) := by
  unfold concurrentlyPending
  infer_instance

theorem step_nonsettling (myId : String) (s : ReqState) (e : BridgeEvent)
    (h : isSettling myId e = false) : step myId s e = s := by
  cases e with
  | msg m =>
    simp only [isSettling] at h
    simp [step, h]
  | timeout => simp [isSettling] at h

theorem step_settled (myId : String) (r : Option String) (e : BridgeEvent) :
    step myId ⟨false, some r⟩ e = ⟨false, some r⟩ := by
  cases e with
  | msg m => simp [step]
  | timeout => simp [step, resolveWith]

theorem foldl_nonsettling (myId : String) (pre : List BridgeEvent)
    (h : ∀ e ∈ pre, isSettling myId e = false) :
    pre.foldl (step myId) initState = initState := by
  induction pre with
  | nil => rfl
  | cons e es ih =>
    simp only [List.foldl_cons]
    rw [step_nonsettling myId initState e (h e (by simp))]
    exact ih (fun x hx => h x (by simp [hx]))

theorem foldl_settled (myId : String) (r : Option String) (post : List BridgeEvent) :
    post.foldl (step myId) ⟨false, some r⟩ = ⟨false, some r⟩ := by
  induction post with
  | nil => rfl
  | cons e es ih =>
    simp only [List.foldl_cons]
    rw [step_settled myId r e]
    exact ih

deriving instance DecidableEq for Except

/-! ## Claim theorems -/

theorem selectTrack_isSome (tracks : List CaptionTrack) (h : tracks ≠ []) :
    (selectTrack tracks).isSome = true := by
  unfold selectTrack
  cases hf : tracks.find? preferredTrack with
  | some t => rfl
  | none =>
    cases tracks with
    | nil => exact absurd rfl h
    | cons a as => rfl

/-- C1: selectTrack returns the first track whose kind is not the
auto-generated sentinel asr when one exists, and otherwise the first track
of the list; it is a total deterministic function of the list and is never
none on non-empty input. -/
theorem c1_selectTrack (tracks : List CaptionTrack) (h : tracks ≠ []) :
    selectTrack tracks = specSelectTrack tracks
    ∧ (selectTrack tracks).isSome = true := by
  constructor
  · unfold selectTrack specSelectTrack
    have hfun : (fun t => preferredTrack t) = (fun t : CaptionTrack => t.kind != some "asr") := by
      funext t
      exact preferredTrack_eq t
    rw [show tracks.find? preferredTrack
        = tracks.find? (fun t : CaptionTrack => t.kind != some "asr") from by rw [← hfun]]
  · exact selectTrack_isSome tracks h

/-- Witness for C1 at the end-to-end scenario of the specification: an
auto-generated track followed by a human-authored one. -/
theorem c1_selectTrack_witness :
    selectTrack [⟨"urlA", "en", some "asr"⟩, ⟨"urlB", "en", none⟩]
      = specSelectTrack [⟨"urlA", "en", some "asr"⟩, ⟨"urlB", "en", none⟩]
    ∧ (selectTrack [⟨"urlA", "en", some "asr"⟩, ⟨"urlB", "en", none⟩]).isSome = true :=
  c1_selectTrack [⟨"urlA", "en", some "asr"⟩, ⟨"urlB", "en", none⟩] (by decide)

/-- C3: formatTimestamp computes hours, minutes and seconds by the stated
integer formulas, zero-pads minutes and seconds to two digits, renders the
hours segment unpadded and only when positive, and produces the four stated
concrete values. -/
theorem c3_formatTimestamp :
    (∀ ms : Nat, formatTimestamp ms =
      (if ms / 1000 / 3600 > 0 then
        String.mk (natToDecimal (ms / 1000 / 3600)) ++ ":" ++
          padTwo (ms / 1000 / 60 % 60) ++ ":" ++ padTwo (ms / 1000 % 60)
      else padTwo (ms / 1000 / 60 % 60) ++ ":" ++ padTwo (ms / 1000 % 60)))
    ∧ formatTimestamp 0 = "00:00" ∧ formatTimestamp 59999 = "00:59"
    ∧ formatTimestamp 60000 = "01:00" ∧ formatTimestamp 3600000 = "1:00:00" := by
  refine ⟨?_, by decide, by decide, by decide, by decide⟩
  intro ms
  unfold formatTimestamp
  have hm : ms / 1000 % 3600 / 60 = ms / 1000 / 60 % 60 := by
    have h36 : (3600 : Nat) = 60 * 60 := by norm_num
    rw [h36, Nat.mod_mul_right_div_self]
  simp only [hm]

/-- C6: the raw caption payload acquisition rejects with the fetch-timeout
error when the 15-second bound expires, classifies a non-success status and
a zero-length body both as upstream unavailability, and checks the
zero-length body explicitly even on a success status. -/
theorem c6_fetchRawPayload :
    fetchRawPayload .timedOut = .error .fetchTimeout
    ∧ (∀ r : HttpText, fetchRawPayload (.response r) =
        if r.ok then
          (if r.body.length = 0 then .error .emptyTranscriptResponse else .ok r.body)
        else .error (.fetchFailed r.status))
    ∧ (∀ s : Nat, isUpstreamUnavailable (.fetchFailed s) = true)
    ∧ isUpstreamUnavailable .emptyTranscriptResponse = true
    ∧ fetchRawPayload (.response ⟨true, 200, ""⟩) = .error .emptyTranscriptResponse
    ∧ rawFetchTimeoutMs = 15000 := by
  refine ⟨rfl, ?_, fun s => rfl, rfl, rfl, rfl⟩
  intro r
  unfold fetchRawPayload fetchTranscriptXml
  by_cases h : r.ok
  · simp [h]
  · simp [h]

/-- C7: when the fetched payload is non-empty but the parser extracts zero
lines, getTranscript fails with the parse-failure error instead of
succeeding with an empty transcript or reporting missing captions. -/
theorem c7_parseFailure (env : Env) (xml : String) (st : Nat)
    (hvid : env.videoId.isSome = true)
    (hkey : env.apiKey.isSome = true)
    (hok : env.playerResp.ok = true)
    (htracks : (getCaptionTracks env.playerResp.captions).isEmpty = false)
    (hfetch : env.xmlFetch = .response ⟨true, st, xml⟩)
    (hne : xml.length ≠ 0)
    (hparse : parseTranscriptXml xml = "") :
    getTranscript env = .error .parseFailure := by
  obtain ⟨v, hv⟩ := Option.isSome_iff_exists.mp hvid
  obtain ⟨k, hk⟩ := Option.isSome_iff_exists.mp hkey
  unfold getTranscript
  rw [hv]
  simp only
  unfold fetchPlayerData
  rw [hk]
  simp only [hok, if_true]
  simp only [htracks, Bool.false_eq_true, if_false]
  have hne2 : getCaptionTracks env.playerResp.captions ≠ [] := by
    intro hnil
    rw [hnil] at htracks
    simp at htracks
  obtain ⟨track, htrack⟩ :=
    Option.isSome_iff_exists.mp (selectTrack_isSome _ hne2)
  rw [htrack]
  simp only
  unfold fetchRawPayload fetchTranscriptXml
  rw [hfetch]
  simp only [if_true]
  rw [if_neg hne]
  simp only [hparse]
  rfl

/-- Witness for C7: a non-empty payload the scanner recognizes nothing in. -/
theorem c7_parseFailure_witness :
    getTranscript
      ⟨some "abc", some "key",
        ⟨true, 200, some [⟨"url", "en", none⟩]⟩,
        .response ⟨true, 200, "hello"⟩⟩ = .error .parseFailure :=
  c7_parseFailure
    ⟨some "abc", some "key",
      ⟨true, 200, some [⟨"url", "en", none⟩]⟩,
      .response ⟨true, 200, "hello"⟩⟩
    "hello" 200 rfl rfl rfl rfl rfl (by decide) (by decide)

/-- C10: a successful getTranscript result is a non-empty string, and hence
every response message carrying a transcript payload carries a non-empty
string. -/
theorem c10_success_nonempty :
    (∀ (env : Env) (t : String), getTranscript env = .ok t → t ≠ "")
    ∧ (∀ (env : Env) (mid t : String),
        (listenerResponse mid (getTranscript env)).transcript = some t → t ≠ "") := by
  have main : ∀ (env : Env) (t : String), getTranscript env = .ok t → t ≠ "" := by
    intro env t h
    unfold getTranscript at h
    cases hv : env.videoId with
    | none => rw [hv] at h; exact absurd h (by simp)
    | some v =>
      rw [hv] at h
      simp only at h
      cases hp : fetchPlayerData env.apiKey env.playerResp with
      | error e => rw [hp] at h; exact absurd h (by simp)
      | ok captions =>
        rw [hp] at h
        simp only at h
        by_cases ht : (getCaptionTracks captions).isEmpty = true
        · rw [if_pos ht] at h; exact absurd h (by simp)
        · rw [if_neg ht] at h
          cases hs : selectTrack (getCaptionTracks captions) with
          | none => rw [hs] at h; exact absurd h (by simp)
          | some track =>
            rw [hs] at h
            simp only at h
            cases hf : fetchRawPayload env.xmlFetch with
            | error e => rw [hf] at h; exact absurd h (by simp)
            | ok xml =>
              rw [hf] at h
              simp only at h
              by_cases hpe : (parseTranscriptXml xml).isEmpty = true
              · rw [if_pos hpe] at h; exact absurd h (by simp)
              · rw [if_neg hpe] at h
                have : parseTranscriptXml xml = t := by
                  injection h
                subst this
                intro hcontra
                rw [hcontra] at hpe
                exact hpe rfl
  refine ⟨main, ?_⟩
  intro env mid t h
  cases hg : getTranscript env with
  | error e =>
    rw [hg] at h
    simp [listenerResponse] at h
  | ok t0 =>
    rw [hg] at h
    simp only [listenerResponse, Option.some.injEq] at h
    subst h
    exact main env t0 hg

/-- Witness for C10 on a fully successful environment. -/
theorem c10_success_nonempty_witness : "[00:00] Hi" ≠ "" :=
  c10_success_nonempty.1
    ⟨some "abc", some "key",
      ⟨true, 200, some [⟨"url", "en", none⟩]⟩,
      .response ⟨true, 200, "<p t=\"0\">Hi</p>"⟩⟩
    "[00:00] Hi" (by decide)

/-- C4: a correlated non-error response arriving before any settling event
resolves the request with the response transcript payload, the final state
is independent of every later event (duplicate correlated responses
included), and any further event is a no-op on the settled state. -/
theorem c4_single_resolution (myId : String) (pre post : List BridgeEvent) (m : ResultMsg)
    (hpre : ∀ e ∈ pre, isSettling myId e = false)
    (hm : matchesId myId m = true)
    (herr : errTruthy m = false) :
    runReq myId (pre ++ .msg m :: post) = ⟨false, some m.transcript⟩
    ∧ (∀ e, step myId ⟨false, some m.transcript⟩ e = ⟨false, some m.transcript⟩) := by
  constructor
  · unfold runReq
    rw [List.foldl_append]
    rw [foldl_nonsettling myId pre hpre]
    simp only [List.foldl_cons]
    have hstep : step myId initState (.msg m) = ⟨false, some m.transcript⟩ := by
      simp [step, initState, hm, herr, resolveWith]
    rw [hstep]
    exact foldl_settled myId m.transcript post
  · intro e
    exact step_settled myId m.transcript e

/-- Witness for C4: a non-matching message first, the correlated response,
then a duplicate of the same response and a late timeout. -/
theorem c4_single_resolution_witness :
    runReq "transcript-0"
      ([.msg ⟨"OTHER", "transcript-0", none, none⟩] ++
        .msg ⟨"TRANSCRIPT_RESULT", "transcript-0", some "T", none⟩ ::
          [.msg ⟨"TRANSCRIPT_RESULT", "transcript-0", some "T", none⟩, .timeout])
      = ⟨false, some (some "T")⟩
    ∧ (∀ e, step "transcript-0" ⟨false, some (some "T")⟩ e = ⟨false, some (some "T")⟩) :=
  c4_single_resolution "transcript-0"
    [.msg ⟨"OTHER", "transcript-0", none, none⟩]
    [.msg ⟨"TRANSCRIPT_RESULT", "transcript-0", some "T", none⟩, .timeout]
    ⟨"TRANSCRIPT_RESULT", "transcript-0", some "T", none⟩
    (by decide) (by decide) (by decide)

/-- C5: a correlated response carrying a truthy error field and the expiry
of the timeout with no prior settling event both leave the request resolved
with the null payload, the same final state in both cases, and never a
rejection (the model has no rejected state at all). -/
theorem c5_error_timeout_equiv (myId : String) (m : ResultMsg)
    (pre1 post1 pre2 post2 : List BridgeEvent) :
    ((∀ e ∈ pre1, isSettling myId e = false) → matchesId myId m = true →
      errTruthy m = true →
      runReq myId (pre1 ++ .msg m :: post1) = ⟨false, some none⟩)
    ∧ ((∀ e ∈ pre2, isSettling myId e = false) →
      runReq myId (pre2 ++ .timeout :: post2) = ⟨false, some none⟩) := by
  constructor
  · intro hpre hm herr
    unfold runReq
    rw [List.foldl_append]
    rw [foldl_nonsettling myId pre1 hpre]
    simp only [List.foldl_cons]
    have hstep : step myId initState (.msg m) = ⟨false, some none⟩ := by
      simp [step, initState, hm, herr, resolveWith]
    rw [hstep]
    exact foldl_settled myId none post1
  · intro hpre
    unfold runReq
    rw [List.foldl_append]
    rw [foldl_nonsettling myId pre2 hpre]
    simp only [List.foldl_cons]
    have hstep : step myId initState .timeout = ⟨false, some none⟩ := by
      simp [step, initState, resolveWith]
    rw [hstep]
    exact foldl_settled myId none post2

/-- Witness for C5: an explicit error response on one run and a bare timeout
on another run produce the same resolved-null state. -/
theorem c5_error_timeout_equiv_witness :
    runReq "transcript-0"
      ([] ++ .msg ⟨"TRANSCRIPT_RESULT", "transcript-0", none, some "No transcript available"⟩ :: [])
      = ⟨false, some none⟩
    ∧ runReq "transcript-0" ([] ++ .timeout :: []) = ⟨false, some none⟩ :=
  ⟨(c5_error_timeout_equiv "transcript-0"
      ⟨"TRANSCRIPT_RESULT", "transcript-0", none, some "No transcript available"⟩
      [] [] [] []).1 (by decide) (by decide) (by decide),
   (c5_error_timeout_equiv "transcript-0"
      ⟨"TRANSCRIPT_RESULT", "transcript-0", none, some "No transcript available"⟩
      [] [] [] []).2 (by decide)⟩

/-! ## Identity of entity decoding on ampersand-free text -/

theorem rewriteGo_no_amp (f : List Char → Option (List Char × List Char))
    (hf : ∀ (c : Char) (cs : List Char), c ≠ '&' → f (c :: cs) = none) :
    ∀ (fuel : Nat) (cs : List Char), (∀ c ∈ cs, c ≠ '&') → rewriteGo f fuel cs = cs := by
  intro fuel
  induction fuel with
  | zero => intro cs _; rfl
  | succ fuel ih =>
    intro cs h
    cases cs with
    | nil => rfl
    | cons c cs =>
      have hc : c ≠ '&' := h c (by simp)
      simp only [rewriteGo, hf c cs hc]
      rw [ih cs (fun x hx => h x (by simp [hx]))]

theorem litMatcher_no_amp (pat rep : List Char) (hp : pat.head? = some '&') :
    ∀ (c : Char) (cs : List Char), c ≠ '&' → litMatcher pat rep (c :: cs) = none := by
  intro c cs hc
  cases pat with
  | nil => simp at hp
  | cons p ps =>
    have hpv : p = '&' := by simpa using hp
    subst hpv
    simp [litMatcher, dropLit, hc]

theorem replaceAll_no_amp (pat rep cs : List Char) (hp : pat.head? = some '&')
    (h : ∀ c ∈ cs, c ≠ '&') : replaceAll pat rep cs = cs := by
  unfold replaceAll
  have hne : pat.isEmpty = false := by
    cases pat with
    | nil => simp at hp
    | cons a as => rfl
  rw [if_neg (by simp [hne])]
  exact rewriteGo_no_amp _ (litMatcher_no_amp pat rep hp) cs.length cs h

theorem decEntAt_no_amp :
    ∀ (c : Char) (cs : List Char), c ≠ '&' → decEntAt (c :: cs) = none := by
  intro c cs hc
  simp [decEntAt, dropLit, hc]

theorem hexEntAt_no_amp :
    ∀ (c : Char) (cs : List Char), c ≠ '&' → hexEntAt (c :: cs) = none := by
  intro c cs hc
  simp [hexEntAt, dropLit, hc]

theorem applyEntityTable_no_amp (cs : List Char) (h : ∀ c ∈ cs, c ≠ '&') :
    applyEntityTable cs = cs := by
  unfold applyEntityTable entityTable
  simp only [List.foldl_cons, List.foldl_nil]
  rw [replaceAll_no_amp "&amp;".toList "&".toList cs (by decide) h]
  rw [replaceAll_no_amp "&lt;".toList "<".toList cs (by decide) h]
  rw [replaceAll_no_amp "&gt;".toList ">".toList cs (by decide) h]
  rw [replaceAll_no_amp "&quot;".toList "\"".toList cs (by decide) h]
  rw [replaceAll_no_amp "&#39;".toList "\x27".toList cs (by decide) h]
  rw [replaceAll_no_amp "&apos;".toList "\x27".toList cs (by decide) h]
  rw [replaceAll_no_amp "&#x27;".toList "\x27".toList cs (by decide) h]
  rw [replaceAll_no_amp "&#x2F;".toList "/".toList cs (by decide) h]
  rw [replaceAll_no_amp "&#47;".toList "/".toList cs (by decide) h]
  rw [replaceAll_no_amp "&nbsp;".toList " ".toList cs (by decide) h]

theorem decodeHtmlEntities_no_amp (s : String) (h : ∀ c ∈ s.toList, c ≠ '&') :
    decodeHtmlEntities s = s := by
  unfold decodeHtmlEntities decodeDecEntities decodeHexEntities
  rw [applyEntityTable_no_amp s.toList h]
  rw [rewriteGo_no_amp decEntAt decEntAt_no_amp s.toList.length s.toList h]
  rw [rewriteGo_no_amp hexEntAt hexEntAt_no_amp s.toList.length s.toList h]
  rfl

/-- C8 counterexample: entity decoding is not idempotent.  The input is the
double-encoded ampersand entity: one decoding pass yields the singly
encoded entity text, and a second pass decodes it again to a bare
ampersand. -/
theorem c8_decode_not_idempotent :
    decodeHtmlEntities (decodeHtmlEntities "&amp;amp;")
      ≠ decodeHtmlEntities "&amp;amp;" := by decide

/-- C8 (amended): entity decoding is the identity, and hence idempotent, on
text containing no ampersand character, and maps each of the listed
entities to its decoded character. -/
theorem c8_decode_amended :
    (∀ s : String, (∀ c ∈ s.toList, c ≠ '&') →
      decodeHtmlEntities s = s
      ∧ decodeHtmlEntities (decodeHtmlEntities s) = decodeHtmlEntities s)
    ∧ decodeHtmlEntities "&amp;" = "&"
    ∧ decodeHtmlEntities "&lt;" = "<"
    ∧ decodeHtmlEntities "&gt;" = ">"
    ∧ decodeHtmlEntities "&quot;" = "\""
    ∧ decodeHtmlEntities "&#39;" = "\x27"
    ∧ decodeHtmlEntities "&#65;" = "A"
    ∧ decodeHtmlEntities "&#x41;" = "A" := by
  refine ⟨?_, by decide, by decide, by decide, by decide, by decide, by decide, by decide⟩
  intro s h
  have h1 := decodeHtmlEntities_no_amp s h
  refine ⟨h1, ?_⟩
  rw [h1]
  exact h1

/-- Witness for C8 (amended) on a concrete ampersand-free string. -/
theorem c8_decode_amended_witness :
    decodeHtmlEntities "hello world" = "hello world"
    ∧ decodeHtmlEntities (decodeHtmlEntities "hello world")
      = decodeHtmlEntities "hello world" :=
  c8_decode_amended.1 "hello world" (by decide)

/-! ## C2: rendered well-formed payloads parse to exactly their entries -/

/-- Rendered output line of one well-formed entry with non-empty cleaned
text. -/
def lineOfEntry (e : PEntry) : String :=
  "[" ++ formatTimestamp (digitsToNat e.tAttr) ++ "] " ++ String.mk (cleanText e.text)

theorem filterMap_lineOf (es : List PEntry)
    (ht : ∀ e ∈ es, cleanText e.text ≠ []) :
    (es.map (fun e => (digitsToNat e.tAttr, e.text))).filterMap lineOfMatch
      = es.map lineOfEntry := by
  induction es with
  | nil => rfl
  | cons e es ih =>
    simp only [List.map_cons, List.filterMap_cons]
    have hne : cleanText e.text ≠ [] := ht e (by simp)
    have hempty : (cleanText e.text).isEmpty = false := by
      cases h' : cleanText e.text with
      | nil => exact absurd h' hne
      | cons a as => rfl
    have hline : lineOfMatch (digitsToNat e.tAttr, e.text) = some (lineOfEntry e) := by
      unfold lineOfMatch lineOfEntry
      simp [hempty]
    rw [hline, ih (fun x hx => ht x (by simp [hx]))]

/-- C2: a payload of well-formed tag-delimited entries, each with non-empty
text after entity decoding, newline replacement and trimming, parses to
exactly one line per entry, in entry order. -/
theorem c2_parse_render (es : List PEntry)
    (hw : ∀ e ∈ es, wellFormed e)
    (ht : ∀ e ∈ es, cleanText e.text ≠ []) :
    transcriptLines (String.mk (renderPayload es)) = es.map lineOfEntry
    ∧ (transcriptLines (String.mk (renderPayload es))).length = es.length
    ∧ parseTranscriptXml (String.mk (renderPayload es))
        = String.intercalate "\n" (es.map lineOfEntry) := by
  have hmain : transcriptLines (String.mk (renderPayload es)) = es.map lineOfEntry := by
    unfold transcriptLines
    have htl : (String.mk (renderPayload es)).toList = renderPayload es := rfl
    rw [htl, pMatches_render es hw, filterMap_lineOf es ht]
  refine ⟨hmain, ?_, ?_⟩
  · rw [hmain]
    simp
  · unfold parseTranscriptXml
    rw [hmain]

/-- Witness for C2 at the end-to-end scenario of the specification: two
entries, the second containing an encoded ampersand. -/
theorem c2_parse_render_witness :
    transcriptLines (String.mk (renderPayload
        [⟨"1000".toList, [], "Hello".toList⟩,
         ⟨"2500".toList, [], "World &amp; friends".toList⟩]))
      = [⟨"1000".toList, [], "Hello".toList⟩,
         ⟨"2500".toList, [], "World &amp; friends".toList⟩].map lineOfEntry
    ∧ (transcriptLines (String.mk (renderPayload
        [⟨"1000".toList, [], "Hello".toList⟩,
         ⟨"2500".toList, [], "World &amp; friends".toList⟩]))).length = 2
    ∧ parseTranscriptXml (String.mk (renderPayload
        [⟨"1000".toList, [], "Hello".toList⟩,
         ⟨"2500".toList, [], "World &amp; friends".toList⟩]))
      = String.intercalate "\n"
          ([⟨"1000".toList, [], "Hello".toList⟩,
            ⟨"2500".toList, [], "World &amp; friends".toList⟩].map lineOfEntry) :=
  c2_parse_render
    [⟨"1000".toList, [], "Hello".toList⟩,
     ⟨"2500".toList, [], "World &amp; friends".toList⟩]
    (by decide) (by decide)

/-- C9 counterexample: the claim that concurrently pending requests always
carry distinct correlation identifiers is false, at the concrete input of
two requests minted at the same millisecond clock reading (reading 0 for
both): they overlap as pending requests yet mint the same identifier. -/
theorem c9_mintId_collision :
    ¬ (∀ t1 t2 : Nat, concurrentlyPending t1 t2 → mintId t1 ≠ mintId t2) := by
  intro hall
  exact hall 0 0 (by constructor <;> simp [bridgeTimeoutMs]) rfl

/-- C9 (amended): two concurrently pending requests carry distinct
correlation identifiers whenever their millisecond clock readings at mint
time differ; identifiers collide exactly when both requests are minted
within the same millisecond. -/
theorem c9_mintId_inj (t1 t2 : Nat) (_hpend : concurrentlyPending t1 t2)
    (hne : t1 ≠ t2) : mintId t1 ≠ mintId t2 := by
  intro h
  apply hne
  unfold mintId at h
  have hdata := congrArg String.data h
  simp only [String.data_append] at hdata
  have htail := List.append_cancel_left hdata
  exact natToDecimal_inj t1 t2 htail

/-- Witness for C9 (amended): readings 0 and 1 overlap as pending and mint
distinct identifiers. -/
theorem c9_mintId_inj_witness : mintId 0 ≠ mintId 1 :=
  c9_mintId_inj 0 1 (by constructor <;> simp [bridgeTimeoutMs]) (by decide)
